import Mathlib

/-!
Verification development for the Sonu whisper.cpp bridge
(`apps/mobile/android/app/src/main/cpp/whisper-jni.cpp`, declared on iOS by
`apps/mobile/ios/Sonu/Sonu/WhisperBridge.h`).

The C++ code is shallowly embedded:

* A file on disk is a `List Byte` (`Byte := Fin 256`); an unopenable file is
  `none`.  Uninitialized stack memory (the 44-byte `char header[44]` buffer
  that `read_wav_file` only partially fills when the file is shorter than 44
  bytes) is an explicit parameter `junk : Nat → Byte`.
* `jlong` is a 64-bit signed integer, modelled as `Int` together with the
  explicit wrap in `ptr_to_jlong`; native pointers are addresses `Nat`
  (`< 2 ^ 64` where it matters).
* The external whisper library is an oracle `WhisperEnv`:
  `whisper_full` receives the context pointer, the parameter block and the
  samples, and yields the return code together with the segment state that
  `whisper_full_n_segments` / `whisper_full_get_segment_text` then read
  (modelled as the returned `List String`, accessed by index).
  The fields of `whisper_full_params` not touched by this code are an
  abstract `rest : ρ` component.
* `float` samples: every value `s / 32768.0f` with `s : int16` is exactly
  representable in IEEE binary32 (a dyadic rational `m / 2 ^ 15` with
  `|m| ≤ 2 ^ 15`), so the conversion is modelled exactly over `ℚ`.
* JNI failures (`GetStringUTFChars` / `GetFloatArrayElements` returning
  NULL) are modelled by `Option` arguments / a success flag.
-/

namespace Sonu

/-- A byte of a file on disk. -/
abbrev Byte := Fin 256

/-- The `"RIFF"` magic: bytes `'R','I','F','F'`. -/
def riffMagic : List Byte := [82, 73, 70, 70]

/-- Little-endian decoding of `uint32_t` from four bytes, as in
`*(uint32_t*)(header + 40)` on a little-endian target. -/
def le32 (b0 b1 b2 b3 : Byte) : Nat :=
  b0.val + 256 * b1.val + 65536 * b2.val + 16777216 * b3.val

/-- Two bytes reinterpreted as a little-endian two's-complement `int16_t`. -/
def toInt16 (lo hi : Byte) : Int :=
  if lo.val + 256 * hi.val < 32768 then (lo.val + 256 * hi.val : Nat)
  else (lo.val + 256 * hi.val : Nat) - 65536

/-- Byte `i` of the `char header[44]` buffer after `file.read(header, 44)`:
the stream stores the bytes that exist in the file and leaves the rest of the
(uninitialized) buffer as the stack junk it held. -/
def headerByte (junk : Nat → Byte) (file : List Byte) (i : Nat) : Byte :=
  if h : i < file.length then file.get ⟨i, h⟩ else junk i

/-- Field `data_size`, read from bytes 40-43 of the header buffer. -/
def wav_data_size (junk : Nat → Byte) (file : List Byte) : Nat :=
  le32 (headerByte junk file 40) (headerByte junk file 41)
    (headerByte junk file 42) (headerByte junk file 43)

/-- The bytes available to the second `file.read`: if the header read hit
end-of-file (file shorter than 44 bytes) the stream is in a failed state and
the second read extracts nothing; otherwise the bytes after offset 44. -/
def wav_avail (file : List Byte) : List Byte :=
  if file.length < 44 then [] else file.drop 44

/-- Byte `j` of the `pcm16` buffer after `file.read((char*)pcm16.data(),
data_size)`: the read stores `min data_size avail.length` bytes; the
remaining positions keep the zero that `std::vector<int16_t> pcm16(n)`
value-initialized them to. -/
def wav_byteAt (junk : Nat → Byte) (file : List Byte) (j : Nat) : Byte :=
  let avail := wav_avail file
  if h : j < min (wav_data_size junk file) avail.length then
    avail.get ⟨j, lt_of_lt_of_le h (min_le_right _ _)⟩
  else 0

/-- The `std::vector<int16_t> pcm16(data_size / 2)` contents after the data
read. -/
def wav_pcm16 (junk : Nat → Byte) (file : List Byte) : List Int :=
  (List.range (wav_data_size junk file / 2)).map fun i =>
    toInt16 (wav_byteAt junk file (2 * i)) (wav_byteAt junk file (2 * i + 1))

/-- The float conversion loop `pcmf32[i] = pcm16[i] / 32768.0f` (exact over
`ℚ`, see the file header). -/
def wav_pcmf32 (junk : Nat → Byte) (file : List Byte) : List ℚ :=
  (wav_pcm16 junk file).map fun s : Int => (s : ℚ) / 32768

/-- Function `read_wav_file`: `none` both for an unopenable file and for a failed
magic check (C++ `return false`); `some pcmf32` for `return true` with the
produced samples (the C++ out-parameter). -/
def read_wav_file (junk : Nat → Byte) (file? : Option (List Byte)) :
    Option (List ℚ) :=
  match file? with
  | none => none
  | some file =>
    if headerByte junk file 0 = 82 ∧ headerByte junk file 1 = 73 ∧
        headerByte junk file 2 = 70 ∧ headerByte junk file 3 = 70 then
      some (wav_pcmf32 junk file)
    else
      none

/-- Cast `(jlong)ctx`: a 64-bit address reinterpreted as a 64-bit signed
integer. -/
def ptr_to_jlong (p : Nat) : Int :=
  if p < 2 ^ 63 then (p : Int) else (p : Int) - 2 ^ 64

/-- Cast `(struct whisper_context *)contextPtr`: a `jlong` reinterpreted as a
64-bit address. -/
def jlong_to_ptr (j : Int) : Nat :=
  (j % (2 ^ 64 : Int)).toNat

/-- Function `Java_com_sonu_WhisperService_initContext`.  `modelPath?` is `none` when
`GetStringUTFChars` returns NULL; `init_from_file` is the library call
`whisper_init_from_file_with_params` (NULL context modelled as `none`). -/
def initContext (modelPath? : Option String) (init_from_file : String → Option Nat) : Int :=
  match modelPath? with
  | none => 0
  | some path =>
    match init_from_file path with
    | none => 0
    | some ctx => ptr_to_jlong ctx

/-- Function `Java_com_sonu_WhisperService_freeContext`, returning the address passed
to `whisper_free` (`none` when `whisper_free` is not invoked). -/
def freeContext (contextPtr : Int) : Option Nat :=
  if contextPtr = 0 then none else some (jlong_to_ptr contextPtr)

/-- Enumeration `whisper_sampling_strategy`. -/
inductive WhisperSamplingStrategy
  | greedy
  | beamSearch

/-- The fields of `struct whisper_full_params` that this bridge assigns,
plus the untouched remainder `rest : ρ`. -/
structure WhisperFullParams (ρ : Type) where
  print_realtime : Bool
  print_progress : Bool
  print_timestamps : Bool
  print_special : Bool
  translate : Bool
  language : String
  n_threads : Int
  offset_ms : Int
  no_context : Bool
  single_segment : Bool
  rest : ρ

/-- The external whisper library, as seen by this bridge (see the file
header). -/
structure WhisperEnv (ρ : Type) where
  default_params : WhisperSamplingStrategy → WhisperFullParams ρ
  whisper_full : Nat → WhisperFullParams ρ → List ℚ → Int × List String

/-- The parameter-assignment block shared verbatim by `transcribe` and
`transcribeFromFloatArray`. -/
def configure_params {ρ : Type} (d : WhisperFullParams ρ) : WhisperFullParams ρ :=
  { d with
    print_realtime := false
    print_progress := false
    print_timestamps := false
    print_special := false
    translate := false
    language := "en"
    n_threads := 4
    offset_ms := 0
    no_context := true
    single_segment := false }

/-- The parameter block both transcription entry points pass to
`whisper_full`: `whisper_full_default_params(WHISPER_SAMPLING_GREEDY)` with
the assignments of `configure_params`. -/
def transcribe_params {ρ : Type} (W : WhisperEnv ρ) : WhisperFullParams ρ :=
  configure_params (W.default_params WhisperSamplingStrategy.greedy)

/-- The segment-collection loop
`for i in 0..n-1: transcription += text(i); if i < n-1 then += " "`,
indexed from `i` with accumulator `acc`. -/
def collect_loop (n : Nat) (text : Nat → String) (i : Nat) (acc : String) : String :=
  if i < n then
    collect_loop n text (i + 1) (acc ++ text i ++ (if i < n - 1 then " " else ""))
  else
    acc
termination_by n - i

/-- Collecting the transcription from the segment state left in the context:
`n = whisper_full_n_segments(ctx)`, `text i =
whisper_full_get_segment_text(ctx, i)`. -/
def collect_segments (segs : List String) : String :=
  collect_loop segs.length (fun i => segs.getD i "") 0 ""

/-- Function `Java_com_sonu_WhisperService_transcribe`.  `fs` is the file system
(path to openable file contents), `audioPath?` is `none` when
`GetStringUTFChars` returns NULL. -/
def transcribe {ρ : Type} (W : WhisperEnv ρ) (junk : Nat → Byte)
    (fs : String → Option (List Byte)) (contextPtr : Int)
    (audioPath? : Option String) : String :=
  if contextPtr = 0 then "Error: Invalid context"
  else
    match audioPath? with
    | none => "Error: Failed to get audio path"
    | some path =>
      match read_wav_file junk (fs path) with
      | none => "Error: Failed to read audio file"
      | some pcmf32 =>
        let ctx := jlong_to_ptr contextPtr
        let call := W.whisper_full ctx (transcribe_params W) pcmf32
        if call.1 ≠ 0 then "Error: Transcription failed"
        else collect_segments call.2

/-- Mode constants of `ReleaseFloatArrayElements`: `0`, `JNI_COMMIT`,
`JNI_ABORT`. -/
inductive JniReleaseMode
  | commitAndFree
  | commit
  | abortFree

/-- The Java array contents after `ReleaseFloatArrayElements(arr, elems,
mode)`: `JNI_ABORT` frees the native copy without copying it back. -/
def releaseFloatArrayElements (orig copy : List ℚ) : JniReleaseMode → List ℚ
  | JniReleaseMode.abortFree => orig
  | _ => copy

/-- Function `Java_com_sonu_WhisperService_transcribeFromFloatArray`.  `getOk` is
whether `GetFloatArrayElements` succeeds (its result is a copy of the array
contents); the second component of the result is the Java array contents
after the call returns — the bridge holds no other state. -/
def transcribeFromFloatArray {ρ : Type} (W : WhisperEnv ρ) (getOk : Bool)
    (contextPtr : Int) (audioData : List ℚ) : String × List ℚ :=
  if contextPtr = 0 then ("Error: Invalid context", audioData)
  else if !getOk then ("Error: Failed to get audio data", audioData)
  else
    let audio_data_arr := audioData
    let ctx := jlong_to_ptr contextPtr
    let call := W.whisper_full ctx (transcribe_params W) audio_data_arr
    let arrayAfter :=
      releaseFloatArrayElements audioData audio_data_arr JniReleaseMode.abortFree
    if call.1 ≠ 0 then ("Error: Transcription failed", arrayAfter)
    else (collect_segments call.2, arrayAfter)

/-- A string of the `"Error: ..."` sentinel family. -/
def isErrorString (s : String) : Prop :=
  ∃ t : String, s = "Error: " ++ t

/-- Concatenation with exactly one space between consecutive elements and no
trailing space. -/
def joinSpace : List String → String
  | [] => ""
  | [s] => s
  | s :: t :: l => s ++ " " ++ joinSpace (t :: l)

/-- Whether `pat` occurs as a contiguous run at the start of `s`. -/
def beginsWithChars : List Char → List Char → Bool
  | [], _ => true
  | _ :: _, [] => false
  | p :: ps, c :: cs => p == c && beginsWithChars ps cs

/-- Whether `pat` occurs as a contiguous run somewhere in `s`. -/
def containsSeq : List Char → List Char → Bool
  | pat, [] => beginsWithChars pat []
  | pat, c :: cs => beginsWithChars pat (c :: cs) || containsSeq pat cs

/-! ### Concrete inputs used by the witnesses -/

/-- Stack junk that happens to be all zero. -/
def junk0 : Nat → Byte := fun _ => 0

/-- A concrete 48-byte WAV file: `"RIFF"`, 36 further header bytes,
`data_size = 4` at offsets 40-43, then the samples `0x8000` (= -32768) and
`0x03E9` (= 1001). -/
def fileW : List Byte :=
  [82, 73, 70, 70] ++ List.replicate 36 0 ++ [4, 0, 0, 0] ++ [0, 128, 233, 3]

/-- A file system in which every path opens to `fileW`. -/
def fsW : String → Option (List Byte) := fun _ => some fileW

/-- Arbitrary concrete library defaults; `configure_params` overwrites every
field but `rest`. -/
def paramsU : WhisperFullParams Unit :=
  ⟨true, true, true, true, true, "auto", 0, 0, false, true, ()⟩

/-- A library whose `whisper_full` fails with return code 5. -/
def env5 : WhisperEnv Unit := ⟨fun _ => paramsU, fun _ _ _ => (5, [])⟩

/-- A library whose `whisper_full` fails with return code 7. -/
def env7 : WhisperEnv Unit := ⟨fun _ => paramsU, fun _ _ _ => (7, [])⟩

/-- A library whose `whisper_full` succeeds with two segments. -/
def envW : WhisperEnv Unit :=
  ⟨fun _ => paramsU, fun _ _ _ => (0, ["hello", "world"])⟩

/-! ### Claims -/

/-- Claim C9: calling `freeContext` with the null handle 0 is a no-op —
`whisper_free` is not invoked — and a failed `initContext` (NULL path
string, or the library returning a NULL context) returns exactly that 0
sentinel. -/
theorem freeContext_null_noop (f : String → Option Nat) (path : String) :
    freeContext 0 = none ∧ initContext none f = 0 ∧
      initContext (some path) (fun _ => none) = 0 :=
  ⟨rfl, rfl, rfl⟩

/-- Claim C8: handle marshalling is a round-trip — for every nonzero 64-bit
context address the library may return, `initContext` hands out
`ptr_to_jlong` of it, converting that `jlong` back with `jlong_to_ptr`
(as `transcribe`, `transcribeFromFloatArray` and `freeContext` do) yields
exactly the original address, and `freeContext` frees exactly that
context. -/
theorem handle_roundtrip (p : Nat) (path : String) (f : String → Option Nat)
    (hp : p < 2 ^ 64) (h0 : p ≠ 0) (hf : f path = some p) :
    initContext (some path) f = ptr_to_jlong p ∧
    jlong_to_ptr (ptr_to_jlong p) = p ∧
    freeContext (ptr_to_jlong p) = some p := by
  have hrt : jlong_to_ptr (ptr_to_jlong p) = p := by
    simp only [ptr_to_jlong, jlong_to_ptr]
    split_ifs <;> omega
  have hne : ptr_to_jlong p ≠ 0 := by
    simp only [ptr_to_jlong]
    split_ifs <;> omega
  refine ⟨?_, hrt, ?_⟩
  · simp [initContext, hf]
  · simp [freeContext, hne, hrt]

/-- Witness for C8 at the concrete address 5. -/
theorem handle_roundtrip_witness :
    initContext (some "model.bin") (fun _ => some 5) = ptr_to_jlong 5 ∧
    jlong_to_ptr (ptr_to_jlong 5) = 5 ∧
    freeContext (ptr_to_jlong 5) = some 5 :=
  handle_roundtrip 5 "model.bin" (fun _ => some 5) (by decide) (by decide) rfl

/-- Claim C6: both transcription entry points pass `whisper_full` the
default greedy-sampling parameter block modified only by the fixed
assignments: thread count 4, translation off, language `"en"`, offset 0,
`no_context` true, `single_segment` false (and the four print flags off);
every other field (`rest`) is passed through unchanged. -/
theorem params_passthrough {ρ : Type} (W : WhisperEnv ρ) :
    (transcribe_params W).n_threads = 4 ∧
    (transcribe_params W).translate = false ∧
    (transcribe_params W).language = "en" ∧
    (transcribe_params W).offset_ms = 0 ∧
    (transcribe_params W).no_context = true ∧
    (transcribe_params W).single_segment = false ∧
    (transcribe_params W).print_realtime = false ∧
    (transcribe_params W).print_progress = false ∧
    (transcribe_params W).print_timestamps = false ∧
    (transcribe_params W).print_special = false ∧
    (transcribe_params W).rest
      = (W.default_params WhisperSamplingStrategy.greedy).rest :=
  ⟨rfl, rfl, rfl, rfl, rfl, rfl, rfl, rfl, rfl, rfl, rfl⟩

/-- Claim C7: `transcribeFromFloatArray` leaves the caller's array
unchanged — the native copy is released with `JNI_ABORT`, so on every
control path the Java array contents after the call equal the contents
before it, and the bridge (a pure function of its arguments) retains no
state. -/
theorem float_array_unchanged {ρ : Type} (W : WhisperEnv ρ) (getOk : Bool)
    (contextPtr : Int) (audioData : List ℚ) :
    (transcribeFromFloatArray W getOk contextPtr audioData).2 = audioData := by
  simp only [transcribeFromFloatArray, releaseFloatArrayElements]
  split_ifs <;> rfl

/-- Claim C1: `read_wav_file` succeeds exactly when the file can be opened
and its first four bytes are `'R','I','F','F'`; no other property of the
input is checked, so every openable file whose bytes 0-3 are `"RIFF"` is
accepted.  (The hypothesis `4 ≤ file.length` says the file has first four
bytes, as the claim presupposes; on a shorter file the C++ magic check
reads uninitialized stack memory.) -/
theorem read_wav_riff_only (junk : Nat → Byte) :
    read_wav_file junk none = none ∧
    ∀ file : List Byte, 4 ≤ file.length →
      ((read_wav_file junk (some file)).isSome ↔ file.take 4 = riffMagic) := by
  refine ⟨rfl, ?_⟩
  intro file h4
  match file, h4 with
  | a :: b :: c :: d :: t, _ =>
    have h0 : headerByte junk (a :: b :: c :: d :: t) 0 = a := by simp [headerByte]
    have h1 : headerByte junk (a :: b :: c :: d :: t) 1 = b := by simp [headerByte]
    have h2 : headerByte junk (a :: b :: c :: d :: t) 2 = c := by simp [headerByte]
    have h3 : headerByte junk (a :: b :: c :: d :: t) 3 = d := by simp [headerByte]
    simp only [read_wav_file, h0, h1, h2, h3]
    split_ifs with hcond
    · simp only [Option.isSome_some, riffMagic, List.take, true_iff]
      rw [hcond.1, hcond.2.1, hcond.2.2.1, hcond.2.2.2]
    · simp only [Option.isSome_none, Bool.false_eq_true, false_iff, riffMagic,
        List.take]
      intro heq
      apply hcond
      injection heq with h1 heq
      injection heq with h2 heq
      injection heq with h3 heq
      injection heq with h4 _
      exact ⟨h1, h2, h3, h4⟩

/-- Witness for C1 at the concrete file `fileW`. -/
theorem read_wav_riff_only_witness :
    (read_wav_file junk0 (some fileW)).isSome ↔ fileW.take 4 = riffMagic :=
  (read_wav_riff_only junk0).2 fileW (by decide)

/-- Claim C2: on every failure — null context handle, unobtainable path or
array argument, unreadable audio file, or nonzero `whisper_full` return
code — `transcribe` and `transcribeFromFloatArray` return a sentinel string
of the form `"Error: " ++ t` (their return type is a plain string: no
exception, no structured error value). -/
theorem failures_error_prefixed {ρ : Type} (W : WhisperEnv ρ)
    (junk : Nat → Byte) (fs : String → Option (List Byte)) (contextPtr : Int)
    (audioPath? : Option String) (getOk : Bool) (audioData : List ℚ) :
    ((contextPtr = 0 ∨ audioPath? = none ∨
        (∃ path, audioPath? = some path ∧ read_wav_file junk (fs path) = none) ∨
        (∃ path pcm, audioPath? = some path ∧
          read_wav_file junk (fs path) = some pcm ∧
          (W.whisper_full (jlong_to_ptr contextPtr) (transcribe_params W) pcm).1 ≠ 0)) →
      isErrorString (transcribe W junk fs contextPtr audioPath?)) ∧
    ((contextPtr = 0 ∨ getOk = false ∨
        (W.whisper_full (jlong_to_ptr contextPtr) (transcribe_params W) audioData).1 ≠ 0) →
      isErrorString (transcribeFromFloatArray W getOk contextPtr audioData).1) := by
  constructor
  · intro H
    simp only [transcribe]
    split_ifs with hc
    · exact ⟨"Invalid context", rfl⟩
    · cases audioPath? with
      | none => exact ⟨"Failed to get audio path", rfl⟩
      | some path =>
        cases hr : read_wav_file junk (fs path) with
        | none => simp only [hr]; exact ⟨"Failed to read audio file", rfl⟩
        | some pcm =>
          simp only [hr]
          split_ifs with hw
          · exact ⟨"Transcription failed", rfl⟩
          · exfalso
            rcases H with h | h | ⟨q, hq, hq2⟩ | ⟨q, pcm2, hq, hq2, hq3⟩
            · exact hc h
            · exact Option.noConfusion h
            · rw [Option.some_inj] at hq
              subst hq
              rw [hq2] at hr
              exact Option.noConfusion hr
            · rw [Option.some_inj] at hq
              subst hq
              rw [hq2] at hr
              rw [Option.some_inj] at hr
              subst hr
              exact hw hq3
  · intro H
    simp only [transcribeFromFloatArray]
    split_ifs with hc hg hw
    · exact ⟨"Invalid context", rfl⟩
    · exact ⟨"Failed to get audio data", rfl⟩
    · exact ⟨"Transcription failed", rfl⟩
    · exfalso
      rcases H with h | h | h
      · exact hc h
      · rw [h] at hg
        exact hg rfl
      · exact hw h

/-- Witness for C2 at the null context handle. -/
theorem failures_error_prefixed_witness :
    isErrorString (transcribe env5 junk0 fsW 0 none) :=
  (failures_error_prefixed env5 junk0 fsW 0 none true []).1 (Or.inl rfl)

/-- Counterexample to claim C3: with a library whose `whisper_full` returns
code 5 (file readable, context nonzero), `transcribe` returns the fixed
string `"Error: Transcription failed"` — a string identical to the one
returned for code 7, containing neither the run `"5"` nor any digit at all,
so the return code is not propagated as part of the returned string. -/
theorem return_code_not_in_string_cex :
    transcribe env5 junk0 fsW 1 (some "audio.wav")
        = "Error: Transcription failed" ∧
    transcribe env7 junk0 fsW 1 (some "audio.wav")
        = transcribe env5 junk0 fsW 1 (some "audio.wav") ∧
    containsSeq ['5'] ("Error: Transcription failed").toList = false ∧
    ("Error: Transcription failed").toList.all (fun c => !c.isDigit) = true := by
  refine ⟨rfl, rfl, by decide, by decide⟩

/-- Claim C3 as amended: when `whisper_full` returns a nonzero code, both
operations return the fixed sentinel `"Error: Transcription failed"`; the
numeric code itself is only logged, not propagated in the returned
string. -/
theorem nonzero_code_fixed_string {ρ : Type} (W : WhisperEnv ρ)
    (junk : Nat → Byte) (fs : String → Option (List Byte)) (contextPtr : Int)
    (path : String) (pcm : List ℚ) (audioData : List ℚ)
    (hc : contextPtr ≠ 0)
    (hr : read_wav_file junk (fs path) = some pcm)
    (hz : (W.whisper_full (jlong_to_ptr contextPtr) (transcribe_params W) pcm).1 ≠ 0)
    (hz' : (W.whisper_full (jlong_to_ptr contextPtr) (transcribe_params W) audioData).1 ≠ 0) :
    transcribe W junk fs contextPtr (some path) = "Error: Transcription failed" ∧
    (transcribeFromFloatArray W true contextPtr audioData).1
      = "Error: Transcription failed" := by
  constructor
  · simp only [transcribe]
    rw [if_neg hc]
    simp only [hr]
    rw [if_pos hz]
  · simp only [transcribeFromFloatArray]
    rw [if_neg hc]
    simp only [Bool.not_true, Bool.false_eq_true, if_false]
    rw [if_pos hz']

/-- Witness for the amended C3 with the code-5 library. -/
theorem nonzero_code_fixed_string_witness :
    transcribe env5 junk0 fsW 1 (some "audio.wav")
        = "Error: Transcription failed" ∧
    (transcribeFromFloatArray env5 true 1 []).1
      = "Error: Transcription failed" :=
  nonzero_code_fixed_string env5 junk0 fsW 1 "audio.wav"
    (wav_pcmf32 junk0 fileW) [] (by decide) rfl (by decide) (by decide)

theorem joinSpace_cons (s : String) (l : List String) (h : l ≠ []) :
    joinSpace (s :: l) = s ++ " " ++ joinSpace l := by
  cases l with
  | nil => exact absurd rfl h
  | cons t m => rfl

theorem collect_loop_spec (text : Nat → String) :
    ∀ (k i : Nat) (acc : String),
      collect_loop (i + k) text i acc
        = acc ++ joinSpace ((List.range' i k).map text) := by
  intro k
  induction k with
  | zero =>
    intro i acc
    rw [collect_loop]
    have hlt : ¬ i < i + 0 := by omega
    have j0 : joinSpace [] = "" := rfl
    rw [if_neg hlt]
    simp only [List.range'_zero, List.map_nil, j0, String.append_empty]
  | succ k ih =>
    intro i acc
    rw [collect_loop]
    have hlt : i < i + (k + 1) := by omega
    rw [if_pos hlt]
    cases k with
    | zero =>
      have hsep : ¬ i < i + (0 + 1) - 1 := by omega
      have j0 : joinSpace [] = "" := rfl
      have j1 : ∀ s : String, joinSpace [s] = s := fun s => rfl
      have r0 : List.range' (i + 1) 0 = [] := rfl
      have r1 : List.range' i 1 = [i] := rfl
      rw [if_neg hsep, ih (i + 1) (acc ++ text i ++ ""), r0, r1]
      simp only [List.map_nil, List.map_cons, j0, j1, String.append_empty]
    | succ m =>
      have hsep : i < i + (m + 1 + 1) - 1 := by omega
      rw [if_pos hsep]
      have heq : i + (m + 1 + 1) = (i + 1) + (m + 1) := by omega
      rw [heq, ih (i + 1) (acc ++ text i ++ " ")]
      rw [List.range'_succ i (m + 1) 1, List.map_cons, joinSpace_cons]
      · simp [String.append_assoc]
      · simp

theorem map_getD_range (l : List String) :
    (List.range l.length).map (fun j => l.getD j "") = l := by
  apply List.ext_get
  · simp
  · intro n h1 h2
    simp [List.getD_eq_getElem, h2]

theorem collect_segments_eq (segs : List String) :
    collect_segments segs = joinSpace segs := by
  have h := collect_loop_spec (fun i => segs.getD i "") segs.length 0 ""
  rw [Nat.zero_add] at h
  unfold collect_segments
  rw [h, String.empty_append, ← List.range_eq_range', map_getD_range]

/-- Claim C10: on every successful inference (`whisper_full` returns 0) the
returned string is the segment texts in index order joined with exactly one
space between consecutive segments and no trailing space; with zero
segments the result is the empty string, which does not carry the
`"Error: "` sentinel prefix. -/
theorem success_joins_segments {ρ : Type} (W : WhisperEnv ρ) (junk : Nat → Byte)
    (fs : String → Option (List Byte)) (contextPtr : Int) (path : String)
    (pcm : List ℚ) (segs : List String) (audioData : List ℚ) (segs' : List String)
    (hc : contextPtr ≠ 0)
    (hr : read_wav_file junk (fs path) = some pcm)
    (hw : W.whisper_full (jlong_to_ptr contextPtr) (transcribe_params W) pcm = (0, segs))
    (hw' : W.whisper_full (jlong_to_ptr contextPtr) (transcribe_params W) audioData = (0, segs')) :
    transcribe W junk fs contextPtr (some path) = joinSpace segs ∧
    (transcribeFromFloatArray W true contextPtr audioData).1 = joinSpace segs' ∧
    joinSpace ([] : List String) = "" ∧
    ¬ isErrorString "" := by
  refine ⟨?_, ?_, rfl, ?_⟩
  · simp only [transcribe]
    rw [if_neg hc]
    simp only [hr, hw]
    simp [collect_segments_eq]
  · simp only [transcribeFromFloatArray]
    rw [if_neg hc]
    simp only [Bool.not_true, Bool.false_eq_true, if_false, hw']
    simp [collect_segments_eq]
  · rintro ⟨t, ht⟩
    have hlen := congrArg String.length ht
    rw [String.length_append] at hlen
    have e1 : ("" : String).length = 0 := rfl
    have e2 : ("Error: " : String).length = 7 := rfl
    rw [e1, e2] at hlen
    omega

/-- Witness for C10: two segments join to `"hello world"`. -/
theorem success_joins_segments_witness :
    transcribe envW junk0 fsW 1 (some "audio.wav") = "hello world" := by
  have h := success_joins_segments envW junk0 fsW 1 "audio.wav"
    (wav_pcmf32 junk0 fileW) ["hello", "world"] [] ["hello", "world"]
    (by decide) rfl rfl rfl
  exact h.1.trans rfl

theorem read_wav_some_eq (junk : Nat → Byte) (file : List Byte) (l : List ℚ)
    (hl : read_wav_file junk (some file) = some l) :
    l = wav_pcmf32 junk file := by
  simp only [read_wav_file] at hl
  split at hl
  · exact (Option.some_inj.mp hl).symm
  · exact Option.noConfusion hl

theorem headerByte_in_file (junk : Nat → Byte) (file : List Byte) (j : Nat)
    (hj : j < file.length) : headerByte junk file j = file.getD j 0 := by
  simp [headerByte, hj, List.getD_eq_getElem, List.get_eq_getElem]

theorem wav_byteAt_in_file (junk : Nat → Byte) (file : List Byte) (j : Nat)
    (hj : j < wav_data_size junk file) (hjf : 44 + j < file.length) :
    wav_byteAt junk file j = file.getD (44 + j) 0 := by
  have hnl : ¬ file.length < 44 := by omega
  have havail : wav_avail file = file.drop 44 := by rw [wav_avail, if_neg hnl]
  have hlen : (wav_avail file).length = file.length - 44 := by
    rw [havail]; simp
  have hjm : j < min (wav_data_size junk file) (wav_avail file).length := by
    rw [hlen]
    omega
  rw [wav_byteAt]
  rw [dif_pos hjm]
  simp [havail, List.get_eq_getElem, List.getElem_drop, List.getD_eq_getElem, hjf]

/-- Claim C4: for every input `read_wav_file` accepts (with a full 44-byte
header present, where the claim's field `d` is stored in the file), the
number of samples produced is `d / 2` with `d` the little-endian `uint32`
at byte offsets 40-43, and the bytes after the 44-byte header are
interpreted in order as raw little-endian 16-bit PCM samples. -/
theorem wav_sample_layout (junk : Nat → Byte) (file : List Byte)
    (h44 : 44 ≤ file.length) (l : List ℚ)
    (hl : read_wav_file junk (some file) = some l) :
    wav_data_size junk file
        = le32 (file.getD 40 0) (file.getD 41 0) (file.getD 42 0) (file.getD 43 0) ∧
    l.length = wav_data_size junk file / 2 ∧
    ∀ i : Nat, i < wav_data_size junk file / 2 → 44 + 2 * i + 1 < file.length →
      l.getD i 0
        = ((toInt16 (file.getD (44 + 2 * i) 0) (file.getD (44 + 2 * i + 1) 0) : Int) : ℚ)
            / 32768 := by
  have hleq := read_wav_some_eq junk file l hl
  subst hleq
  refine ⟨?_, ?_, ?_⟩
  · rw [wav_data_size, headerByte_in_file junk file 40 (by omega),
      headerByte_in_file junk file 41 (by omega),
      headerByte_in_file junk file 42 (by omega),
      headerByte_in_file junk file 43 (by omega)]
  · simp [wav_pcmf32, wav_pcm16]
  · intro i hi hfi
    have hin : i < (wav_pcmf32 junk file).length := by
      simp only [wav_pcmf32, wav_pcm16, List.length_map, List.length_range]
      exact hi
    rw [List.getD_eq_getElem _ _ hin]
    simp only [wav_pcmf32, wav_pcm16, List.getElem_map, List.getElem_range]
    rw [wav_byteAt_in_file junk file (2 * i) (by omega) (by omega),
      wav_byteAt_in_file junk file (2 * i + 1) (by omega) (by omega),
      Nat.add_assoc 44 (2 * i) 1]

/-- Witness for C4 at sample index 1 of `fileW`. -/
theorem wav_sample_layout_witness :
    (wav_pcmf32 junk0 fileW).getD 1 0
      = ((toInt16 (fileW.getD (44 + 2 * 1) 0) (fileW.getD (44 + 2 * 1 + 1) 0) : Int) : ℚ)
          / 32768 :=
  (wav_sample_layout junk0 fileW (by decide) (wav_pcmf32 junk0 fileW) rfl).2.2
    1 (by decide) (by decide)

/-- Claim C5: every sample `read_wav_file` hands on is `s / 32768` for a
16-bit `s` (so it lies in `[-1, 1)`: `-1` is attained exactly for
`s = -32768`, and `1` is never attained).  The C++ `float` computation is
exact here, see the file header. -/
theorem samples_normalized (junk : Nat → Byte) (file : List Byte) (l : List ℚ)
    (hl : read_wav_file junk (some file) = some l) :
    ∀ x ∈ l, ∃ s : Int, -32768 ≤ s ∧ s < 32768 ∧ x = (s : ℚ) / 32768 ∧
      -1 ≤ x ∧ x < 1 ∧ (x = -1 ↔ s = -32768) := by
  have hleq := read_wav_some_eq junk file l hl
  subst hleq
  intro x hx
  simp only [wav_pcmf32, List.mem_map] at hx
  obtain ⟨s, hs, rfl⟩ := hx
  have hb : -32768 ≤ s ∧ s < 32768 := by
    simp only [wav_pcm16, List.mem_map] at hs
    obtain ⟨i, _, rfl⟩ := hs
    unfold toInt16
    have hlo := (wav_byteAt junk file (2 * i)).isLt
    have hhi := (wav_byteAt junk file (2 * i + 1)).isLt
    split_ifs <;> constructor <;> omega
  refine ⟨s, hb.1, hb.2, rfl, ?_, ?_, ?_⟩
  · rw [le_div_iff₀ (by norm_num : (0:ℚ) < 32768)]
    norm_num
    exact_mod_cast hb.1
  · rw [div_lt_one (by norm_num : (0:ℚ) < 32768)]
    exact_mod_cast hb.2
  · rw [div_eq_iff (by norm_num : (32768:ℚ) ≠ 0)]
    norm_num
    constructor <;> intro h <;> exact_mod_cast h

/-- Witness for C5: the sample `0x8000` of `fileW` converts to exactly
`-1`. -/
theorem samples_normalized_witness :
    ∃ s : Int, -32768 ≤ s ∧ s < 32768 ∧ (-1 : ℚ) = (s : ℚ) / 32768 ∧
      -1 ≤ (-1 : ℚ) ∧ (-1 : ℚ) < 1 ∧ ((-1 : ℚ) = -1 ↔ s = -32768) := by
  apply samples_normalized junk0 fileW (wav_pcmf32 junk0 fileW) rfl
  have hp : wav_pcm16 junk0 fileW = [-32768, 1001] := by decide
  show (-1 : ℚ) ∈ wav_pcmf32 junk0 fileW
  simp only [wav_pcmf32, hp, List.map_cons, List.map_nil, List.mem_cons]
  left
  norm_num

end Sonu
